import Mathlib

/-!
Verification of the stream-buffer and channel-scan subsystem of
`hdhomerun-tuner-controls.c`.

The C code is shallowly embedded: byte arrays become `List Nat`, `gsize`
positions become `Nat` (the C positions are always reduced `% size`, so no
overflow modelling is needed), GLib lists become Lean lists, and the
single-threaded callback structure becomes explicit state passing.  UI-only
effects (labels, dialogs, widget sensitivity) are modelled as plain fields
where a claim observes them and elided otherwise.
-/

/-- Constant `STREAM_BUFFER_SIZE` from the source: 2 MiB. -/
def STREAM_BUFFER_SIZE : Nat := 2 * 1024 * 1024

/-- The `StreamBuffer` struct: backing array, its size, and the two
cursors.  The mutex only serialises calls and has no effect on the
sequential semantics, so it is not modelled. -/
structure StreamBuffer where
  size : Nat
  data : List Nat
  write_pos : Nat
  read_pos : Nat
deriving Repr, DecidableEq

/-- Constructor `stream_buffer_new`, generalised over the capacity (the source fixes it
to `STREAM_BUFFER_SIZE`); the backing store is `g_malloc`ed, modelled as
zero-filled. -/
def stream_buffer_new (size : Nat) : StreamBuffer :=
  { size := size, data := List.replicate size 0, write_pos := 0, read_pos := 0 }

/-- One `memcpy (data + pos, src, src.length)` with `pos + src.length ≤ data.length`. -/
def listCopy (dst : List Nat) (pos : Nat) (src : List Nat) : List Nat :=
  dst.take pos ++ src ++ dst.drop (pos + src.length)

/-- The `while (len > 0)` loop of `stream_buffer_write`.  Each iteration
copies `to_write = MIN (len, size - write_pos)` bytes unless one of the two
"buffer full" break conditions fires.  The loop is given as structural
recursion on a fuel counter so that it computes by kernel reduction; the
caller passes `fuel = payload.length`, which bounds the iteration count
since every iteration consumes at least one payload byte (the
`to_write = 0` break is unreachable while `write_pos < size`, which the
code maintains by always reducing `write_pos` modulo `size`). -/
def stream_buffer_write_go : Nat → StreamBuffer → List Nat → Nat →
    StreamBuffer × Nat
  | 0, buf, _, written => (buf, written)
  | fuel + 1, buf, payload, written =>
    if payload.isEmpty then (buf, written)
    else
      let space_to_end := buf.size - buf.write_pos
      let to_write := min payload.length space_to_end
      let next_write := (buf.write_pos + to_write) % buf.size
      if buf.write_pos < buf.read_pos ∧ buf.read_pos ≤ next_write then
        (buf, written)
      else if buf.read_pos ≤ buf.write_pos ∧ buf.read_pos ≤ next_write ∧
          next_write < buf.write_pos then
        (buf, written)
      else if to_write = 0 then (buf, written)
      else
        stream_buffer_write_go fuel
          { buf with
            data := listCopy buf.data buf.write_pos (payload.take to_write),
            write_pos := next_write }
          (payload.drop to_write) (written + to_write)

/-- Function `stream_buffer_write`: returns the updated buffer and the byte count
actually stored. -/
def stream_buffer_write (buf : StreamBuffer) (payload : List Nat) :
    StreamBuffer × Nat :=
  stream_buffer_write_go payload.length buf payload 0

/-- The `while (len > 0 && read_pos != write_pos)` loop of
`stream_buffer_read`; `acc` accumulates the bytes copied out.  As in the
write loop, the recursion is structural on a fuel counter (`fuel = len`
suffices: each iteration consumes at least one of the requested bytes; the
`to_read = 0` break is unreachable while `read_pos < size`). -/
def stream_buffer_read_go : Nat → StreamBuffer → Nat → List Nat →
    StreamBuffer × List Nat
  | 0, buf, _, acc => (buf, acc)
  | fuel + 1, buf, len, acc =>
    if len = 0 ∨ buf.read_pos = buf.write_pos then (buf, acc)
    else
      let available_to_end :=
        if buf.read_pos < buf.write_pos then buf.write_pos - buf.read_pos
        else buf.size - buf.read_pos
      let to_read := min len available_to_end
      if to_read = 0 then (buf, acc)
      else
        stream_buffer_read_go fuel
          { buf with read_pos := (buf.read_pos + to_read) % buf.size }
          (len - to_read) (acc ++ (buf.data.drop buf.read_pos).take to_read)

/-- Function `stream_buffer_read`: returns the updated buffer and the bytes read. -/
def stream_buffer_read (buf : StreamBuffer) (len : Nat) :
    StreamBuffer × List Nat :=
  stream_buffer_read_go len buf len []

/-- Function `stream_buffer_available`: the currently buffered byte count. -/
def stream_buffer_available (buf : StreamBuffer) : Nat :=
  if buf.read_pos ≤ buf.write_pos then buf.write_pos - buf.read_pos
  else buf.size - buf.read_pos + buf.write_pos

/-- Abstraction function: the queue of unread bytes, in FIFO order, read
from `read_pos` towards `write_pos` (wrapping at `size`). -/
def contents (buf : StreamBuffer) : List Nat :=
  if buf.read_pos ≤ buf.write_pos then
    (buf.data.drop buf.read_pos).take (buf.write_pos - buf.read_pos)
  else
    buf.data.drop buf.read_pos ++ buf.data.take buf.write_pos

/-- Structural well-formedness of a buffer, established by
`stream_buffer_new` and preserved by every operation. -/
def WF (buf : StreamBuffer) : Prop :=
  0 < buf.size ∧ buf.data.length = buf.size ∧
    buf.write_pos < buf.size ∧ buf.read_pos < buf.size

instance (buf : StreamBuffer) : Decidable (WF buf) := by
  unfold WF; infer_instance

/-- A client-visible buffer operation: one `stream_buffer_write` call or
one `stream_buffer_read` call. -/
inductive BufOp where
  | write (payload : List Nat)
  | read (len : Nat)
deriving Repr, DecidableEq

/-- Run a sequence of operations, collecting the final buffer, the
concatenation of all bytes offered to `write`, and the concatenation of
all bytes returned by `read`, in call order. -/
def run_ops (buf : StreamBuffer) : List BufOp → StreamBuffer × List Nat × List Nat
  | [] => (buf, [], [])
  | BufOp.write p :: rest =>
    let r := stream_buffer_write buf p
    let t := run_ops r.1 rest
    (t.1, p ++ t.2.1, t.2.2)
  | BufOp.read n :: rest =>
    let r := stream_buffer_read buf n
    let t := run_ops r.1 rest
    (t.1, t.2.1, r.2 ++ t.2.2)

/-- Every `write` in the sequence fits in the free space
(`size - 1 - available`) at its call time. -/
def ops_fit (buf : StreamBuffer) : List BufOp → Bool
  | [] => true
  | BufOp.write p :: rest =>
    decide (p.length + (contents buf).length + 1 ≤ buf.size) &&
      ops_fit (stream_buffer_write buf p).1 rest
  | BufOp.read n :: rest => ops_fit (stream_buffer_read buf n).1 rest

/-- A `ScannedChannel` record as built by `scanned_channel_new`: the
virtual-channel string, the source frequency, the per-record program count
(always 1 in the scan loop), and the optional display name. -/
structure ScannedChannel where
  channel_str : String
  frequency : Nat
  program_count : Nat
  name : Option String
deriving Repr, DecidableEq

/-- A `SavedChannel` record as built by `saved_channel_new`. -/
structure SavedChannel where
  channel_str : String
  name : Option String
  frequency : Nat
deriving Repr, DecidableEq

/-- The scan-relevant fields of `ScanState`.  The GTK widget pointers are
modelled by their observable content: whether the dialog is open, and the
label/button texts (`none` mirrors a `NULL` widget pointer, as left by
`scan_state_new`). -/
structure ScanState where
  scanning : Bool
  scan_timeout_id : Nat
  found_channels : List ScannedChannel
  current_frequency : Nat
  channels_scanned : Nat
  channels_total : Nat
  scan_dialog : Bool
  scan_status_label : Option String
  scan_cancel_button_label : Option String
deriving Repr, DecidableEq

/-- Constructor `scan_state_new`: everything zeroed / NULL. -/
def scan_state_new : ScanState :=
  { scanning := false, scan_timeout_id := 0, found_channels := [],
    current_frequency := 0, channels_scanned := 0, channels_total := 0,
    scan_dialog := false, scan_status_label := none,
    scan_cancel_button_label := none }

/-- The scan/catalog-relevant fields of `HdhomerunTunerControls`.
`scan_st = none` mirrors a NULL `scan_state` pointer. -/
structure ScanControls where
  hd_device : Bool
  scan_st : Option ScanState
  saved_channels : List SavedChannel
  channel_list : List String
  scan_button_sensitive : Bool
  channel_dropdown_sensitive : Bool
deriving Repr, DecidableEq

/-- The result of one `hdhomerun_device_channelscan_advance` +
`hdhomerun_device_channelscan_detect` round on the stub hardware: the
frequency reported by advance, the detect return value, and the detected
programs as (program_str, name) pairs (an empty string mirrors an empty C
string). -/
structure ScanStep where
  frequency : Nat
  detectRet : Int
  programs : List (String × String)
deriving Repr, DecidableEq

/-- The C idiom `self->scan_state && self->scan_state->scanning`. -/
def scan_in_progress (c : ScanControls) : Bool :=
  match c.scan_st with
  | some st => st.scanning
  | none => false

/-- Function `stop_channel_scan`: clears the scanning flag, removes any pending
scheduled step, closes the dialog, re-enables the scan button.  It never
touches `saved_channels` or `channel_list`. -/
def stop_channel_scan (c : ScanControls) : ScanControls :=
  match c.scan_st with
  | none => c
  | some st =>
    { c with
      scan_st := some { st with
                        scanning := false,
                        scan_timeout_id := 0,
                        scan_dialog := false },
      scan_button_sensitive := true }

/-- The per-frequency program loop of `scan_advance_timeout`: one
`ScannedChannel` per detected program with a non-empty `program_str`
(empty ones are skipped with `continue`), name taken when non-empty. -/
def detected_channels (s : ScanStep) : List ScannedChannel :=
  if 0 < s.detectRet ∧ 0 < s.programs.length then
    (s.programs.filter (fun p => p.1 ≠ "")).map
      (fun p => { channel_str := p.1, frequency := s.frequency,
                  program_count := 1,
                  name := if p.2 = "" then none else some p.2 })
  else []

/-- The status-label text written when programs are found on a frequency. -/
def found_status_text (s : ScanStep) : String :=
  match s.programs with
  | [] => ""
  | p :: rest =>
    if rest.isEmpty then "Found channel " ++ p.1
    else "Found " ++ toString s.programs.length ++ " channels (" ++ p.1 ++ ", ...)"

/-- Function `populate_saved_channels`: wholesale rebuild of `saved_channels` and the
dropdown string list from the scan results; enables the dropdown iff any
channel was found. -/
def populate_saved_channels (c : ScanControls) : ScanControls :=
  let found := match c.scan_st with
    | some st => st.found_channels
    | none => []
  let saved := found.map (fun sc =>
    ({ channel_str := sc.channel_str, name := sc.name,
       frequency := sc.frequency } : SavedChannel))
  let labels := found.map (fun sc =>
    match sc.name with
    | some n => if n = "" then "Channel " ++ sc.channel_str
                else sc.channel_str ++ " - " ++ n
    | none => "Channel " ++ sc.channel_str)
  { c with saved_channels := saved, channel_list := labels,
           channel_dropdown_sensitive := decide (0 < saved.length) }

/-- Function `scan_advance_timeout`, one firing of the scheduled callback.
`advance = none` models `hdhomerun_device_channelscan_advance` returning
`ret ≤ 0` (exhaustion/error); `advance = some s` models a successful
advance followed by the detect call for that frequency.  Returns the new
state and whether the callback rescheduled itself (`g_idle_add`). -/
def scan_advance_timeout (c : ScanControls) (advance : Option ScanStep) :
    ScanControls × Bool :=
  match c.scan_st with
  | none => (c, false)
  | some st =>
    if ¬ st.scanning then (c, false)
    else
      match advance with
      | none =>
        let n := st.found_channels.length
        let st1 :=
          { st with
            scan_status_label := st.scan_status_label.map (fun _ =>
              "Scan complete! Found " ++ toString n ++ " channel(s)"),
            scan_cancel_button_label :=
              st.scan_cancel_button_label.map (fun _ => "Close"),
            scanning := false, scan_timeout_id := 0 }
        (populate_saved_channels
          { c with scan_st := some st1, scan_button_sensitive := true },
         false)
      | some s =>
        let st1 :=
          { st with
            current_frequency := s.frequency,
            channels_scanned := st.channels_scanned + 1,
            scan_status_label := st.scan_status_label.map (fun _ =>
              "Scanning frequency " ++ toString (s.frequency / 1000000) ++ " MHz...") }
        let st2 :=
          if 0 < s.detectRet ∧ 0 < s.programs.length then
            { st1 with
              found_channels := st1.found_channels ++ detected_channels s,
              scan_status_label := st1.scan_status_label.map (fun _ =>
                found_status_text s) }
          else st1
        ({ c with scan_st := some st2 }, true)

/-- The `switch (selected)` table in `on_scan_clicked`: the estimated
channel count for the selected channel map (the channelmap string itself
is consumed only by the hardware init call). -/
def channelmap_estimated (selected : Nat) : Nat :=
  if selected = 0 then 69
  else if selected = 1 then 135
  else if selected = 2 then 69
  else if selected = 3 then 135
  else if selected = 4 then 69
  else if selected = 5 then 135
  else 69

/-- Function `on_scan_clicked` (the scan `begin` entry point).  `selected` is the
channel-map dropdown index, `initRet` the return value of
`hdhomerun_device_channelscan_init`, `timeout_id` the source id handed out
by `g_idle_add`.  Returns the new state and whether the first step was
scheduled. -/
def on_scan_clicked (c : ScanControls) (selected : Nat) (initRet : Int)
    (timeout_id : Nat) : ScanControls × Bool :=
  if ¬ c.hd_device then (c, false)
  else if scan_in_progress c then (c, false)
  else
    let st0 := match c.scan_st with
      | some st => st
      | none => scan_state_new
    let st1 := { st0 with found_channels := [], channels_scanned := 0 }
    if initRet < 0 then ({ c with scan_st := some st1 }, false)
    else
      let st2 :=
        { st1 with
          channels_total := channelmap_estimated selected,
          scan_dialog := true,
          scan_status_label := some "Initializing scan...",
          scan_cancel_button_label := some "Cancel",
          scanning := true,
          scan_timeout_id := timeout_id }
      ({ c with scan_st := some st2, scan_button_sensitive := false }, true)

/-- Drive the scheduled scan callback to quiescence against a hardware stub
that succeeds once per element of `hw` and then reports exhaustion: each
fired callback consumes the next advance result only if it actually calls
the hardware, and the loop ends when the callback does not reschedule. -/
def run_scan_loop (c : ScanControls) : List ScanStep → ScanControls
  | [] => (scan_advance_timeout c none).1
  | s :: rest =>
    let r := scan_advance_timeout c (some s)
    if r.2 then run_scan_loop r.1 rest else r.1

/-- The playback-relevant fields of `HdhomerunTunerControls`, plus the
externally observable hardware/VLC handles as booleans.
`stream_timeout_id = 0` mirrors "no poll task registered" (`g_timeout_add`
always returns a positive source id). -/
structure PlayerState where
  hd_device : Bool
  playing : Bool
  stream_buffer : Bool
  stream_timeout_id : Nat
  hw_streaming : Bool
  vlc_instance : Bool
  vlc_media : Bool
  vlc_player : Bool
  play_button_sensitive : Bool
  stop_button_sensitive : Bool
deriving Repr, DecidableEq

/-- Outcomes of the external calls made by `on_play_clicked`, in program
order: `hdhomerun_device_stream_start`, `libvlc_new`,
`libvlc_media_new_callbacks`, `libvlc_media_player_new`,
`libvlc_media_player_play`. -/
structure PlayOutcomes where
  hw_start_ok : Bool
  vlc_new_ok : Bool
  media_new_ok : Bool
  player_new_ok : Bool
  play_ok : Bool
deriving Repr, DecidableEq

/-- How `on_play_clicked` returned. -/
inductive PlayResult where
  | noDevice
  | alreadyPlaying
  | hwStartFailed
  | vlcInitFailed
  | mediaFailed
  | playerFailed
  | playFailed
  | ok
deriving Repr, DecidableEq

/-- The sequence of states `on_play_clicked` passes through, one entry per
sequence point at which a modelled field changes (plus the entry at the
initial state); the last entry is the state at function return.  VLC
widget/window plumbing changes no modelled field. -/
def on_play_clicked_states (s : PlayerState) (o : PlayOutcomes) :
    List PlayerState :=
  if ¬ s.hd_device then [s]
  else if s.playing then [s]
  else
    let s1 := { s with stream_buffer := true }
    if ¬ o.hw_start_ok then [s, s1]
    else
    let s2 := { s1 with hw_streaming := true }
    if ¬ s.vlc_instance ∧ ¬ o.vlc_new_ok then
      [s, s1, s2, { s2 with hw_streaming := false }]
    else
    let s3 := { s2 with vlc_instance := true }
    if ¬ o.media_new_ok then
      [s, s1, s2, s3, { s3 with hw_streaming := false }]
    else
    let s4 := { s3 with vlc_media := true }
    if ¬ s.vlc_player ∧ ¬ o.player_new_ok then
      [s, s1, s2, s3, s4, { s4 with vlc_media := false },
       { s4 with vlc_media := false, hw_streaming := false }]
    else
    let s5 := { s4 with vlc_player := true }
    let s6 := { s5 with playing := true }
    let s7 := { s6 with stream_timeout_id := 1 }
    if ¬ o.play_ok then
      [s, s1, s2, s3, s4, s5, s6, s7,
       { s7 with playing := false },
       { s7 with playing := false, stream_timeout_id := 0 },
       { s7 with playing := false, stream_timeout_id := 0, hw_streaming := false }]
    else
      [s, s1, s2, s3, s4, s5, s6, s7,
       { s7 with play_button_sensitive := false },
       { s7 with play_button_sensitive := false, stop_button_sensitive := true }]

/-- The result with which `on_play_clicked` returns (mirrors which early
`return` fired). -/
def on_play_clicked_result (s : PlayerState) (o : PlayOutcomes) : PlayResult :=
  if ¬ s.hd_device then PlayResult.noDevice
  else if s.playing then PlayResult.alreadyPlaying
  else if ¬ o.hw_start_ok then PlayResult.hwStartFailed
  else if ¬ s.vlc_instance ∧ ¬ o.vlc_new_ok then PlayResult.vlcInitFailed
  else if ¬ o.media_new_ok then PlayResult.mediaFailed
  else if ¬ s.vlc_player ∧ ¬ o.player_new_ok then PlayResult.playerFailed
  else if ¬ o.play_ok then PlayResult.playFailed
  else PlayResult.ok

/-- The state in which `on_play_clicked` returns (the last entry of
`on_play_clicked_states`, written out branch by branch). -/
def on_play_clicked_final (s : PlayerState) (o : PlayOutcomes) : PlayerState :=
  if ¬ s.hd_device then s
  else if s.playing then s
  else
    let s1 := { s with stream_buffer := true }
    if ¬ o.hw_start_ok then s1
    else
    let s2 := { s1 with hw_streaming := true }
    if ¬ s.vlc_instance ∧ ¬ o.vlc_new_ok then { s2 with hw_streaming := false }
    else
    let s3 := { s2 with vlc_instance := true }
    if ¬ o.media_new_ok then { s3 with hw_streaming := false }
    else
    let s4 := { s3 with vlc_media := true }
    if ¬ s.vlc_player ∧ ¬ o.player_new_ok then
      { s4 with vlc_media := false, hw_streaming := false }
    else
    let s5 := { s4 with vlc_player := true }
    let s6 := { s5 with playing := true }
    let s7 := { s6 with stream_timeout_id := 1 }
    if ¬ o.play_ok then
      { s7 with playing := false, stream_timeout_id := 0, hw_streaming := false }
    else
      { s7 with play_button_sensitive := false, stop_button_sensitive := true }

/-- Constant `GTK_INVALID_LIST_POSITION` (`G_MAXUINT`). -/
def GTK_INVALID_LIST_POSITION : Nat := 4294967295

/-- Function `on_channel_selected`: resolves the dropdown index in `saved_channels`
(`g_list_nth_data` returns NULL when the index is out of range) and, only
when a channel is found, dispatches its `channel_str` to
`hdhomerun_device_set_tuner_channel`.  The returned value is the token
dispatched to the tuner, or `none` when no tuning dispatch happens. -/
def on_channel_selected (c : ScanControls) (selected : Nat) : Option String :=
  if ¬ c.hd_device then none
  else if selected = GTK_INVALID_LIST_POSITION then none
  else
    match c.saved_channels.get? selected with
    | none => none
    | some ch => some ch.channel_str

/-- Accessor: `channels_scanned` as observed through the (possibly NULL) scan state. -/
def scan_channels_scanned (c : ScanControls) : Nat :=
  match c.scan_st with
  | some st => st.channels_scanned
  | none => 0

/-- Whether the scan progress dialog is open. -/
def scan_dialog_open (c : ScanControls) : Bool :=
  match c.scan_st with
  | some st => st.scan_dialog
  | none => false

/-- Spec-side description of the rebuilt catalog (for the refinement
comparison in claim C4): one `SavedChannel` per hardware-reported program
with a non-empty virtual-channel identifier, in scan order — frequency
order first (the order of the advance results), then detection order
within a frequency — programs with an empty identifier skipped. -/
def expected_saved (hw : List ScanStep) : List SavedChannel :=
  hw.flatMap (fun s =>
    (s.programs.filter (fun p => p.1 ≠ "")).map (fun p =>
      { channel_str := p.1,
        name := if p.2 = "" then none else some p.2,
        frequency := s.frequency }))

/-- The state update performed by one successful `scan_advance_timeout`
firing (advance succeeded, detect ran): progress fields, status text, and
the detected channels appended when the detect guard holds. -/
def scan_step_update (st : ScanState) (s : ScanStep) : ScanState :=
  let st1 :=
    { st with
      current_frequency := s.frequency,
      channels_scanned := st.channels_scanned + 1,
      scan_status_label := st.scan_status_label.map (fun _ =>
        "Scanning frequency " ++ toString (s.frequency / 1000000) ++ " MHz...") }
  if 0 < s.detectRet ∧ 0 < s.programs.length then
    { st1 with
      found_channels := st1.found_channels ++ detected_channels s,
      scan_status_label := st1.scan_status_label.map (fun _ =>
        found_status_text s) }
  else st1

/-- Operation sequence for the C3 witness: two writes, a partial read, a
third write crossing the wrap point, and a draining read. -/
def c3_ops : List BufOp :=
  [BufOp.write [1, 2, 3], BufOp.write [4, 5], BufOp.read 2,
   BufOp.write [6, 7], BufOp.read 10]

/-- Concrete one-channel catalog for the C9 witness. -/
def c9_controls : ScanControls :=
  { hd_device := true, scan_st := none,
    saved_channels := [{ channel_str := "5.1", name := some "NBC",
                         frequency := 57000000 }],
    channel_list := ["5.1 - NBC"],
    scan_button_sensitive := true, channel_dropdown_sensitive := true }

/-- Stub hardware trace for the C4 witness: two frequencies with programs
(one program with an empty identifier, to be skipped), one without. -/
def c4_hw : List ScanStep :=
  [{ frequency := 57000000, detectRet := 1,
     programs := [("5.1", "NBC"), ("", "ghost"), ("5.2", "")] },
   { frequency := 63000000, detectRet := 1, programs := [] },
   { frequency := 69000000, detectRet := 1, programs := [("7.1", "ABC")] }]

/-- Fresh controls for the scan witnesses. -/
def c4_controls : ScanControls :=
  { hd_device := true, scan_st := none, saved_channels := [],
    channel_list := [], scan_button_sensitive := true,
    channel_dropdown_sensitive := false }

/-- Accessor: `found_channels` as observed through the (possibly NULL) scan state. -/
def scan_found_channels (c : ScanControls) : List ScannedChannel :=
  match c.scan_st with
  | some st => st.found_channels
  | none => []

/-- Controls mid-scan, for the AlreadyScanning part of the C6 witness. -/
def c6_scanning_controls : ScanControls :=
  { hd_device := true,
    scan_st := some { scan_state_new with scanning := true, scan_timeout_id := 4 },
    saved_channels := [], channel_list := [],
    scan_button_sensitive := false, channel_dropdown_sensitive := false }

/-- Fresh playback state: device bound, nothing playing, no buffer. -/
def play_s0 : PlayerState :=
  { hd_device := true, playing := false, stream_buffer := false,
    stream_timeout_id := 0, hw_streaming := false, vlc_instance := false,
    vlc_media := false, vlc_player := false, play_button_sensitive := true,
    stop_button_sensitive := false }

/-- All external calls succeed. -/
def play_o_ok : PlayOutcomes :=
  { hw_start_ok := true, vlc_new_ok := true, media_new_ok := true,
    player_new_ok := true, play_ok := true }

/-- The hardware "begin stream" call fails; everything else would succeed. -/
def play_o_hwfail : PlayOutcomes :=
  { hw_start_ok := false, vlc_new_ok := true, media_new_ok := true,
    player_new_ok := true, play_ok := true }

/-- Checks a state trace for the amended C7 ordering: a state with
`playing` true and no poll task registered is tolerated only when the very
next state has the poll task registered (and is still playing), and never
as the final state. -/
def play_trace_ok : List PlayerState → Bool
  | [] => true
  | st :: rest =>
    match rest with
    | [] => ! (st.playing && st.stream_timeout_id == 0)
    | st2 :: _ =>
      ((! (st.playing && st.stream_timeout_id == 0)) ||
        (st2.playing && st2.stream_timeout_id != 0)) && play_trace_ok rest

theorem wf_new (size : Nat) (h : 0 < size) : WF (stream_buffer_new size) := by
  refine ⟨h, ?_, h, h⟩
  simp [stream_buffer_new]

theorem length_contents (buf : StreamBuffer) (hwf : WF buf) :
    (contents buf).length = stream_buffer_available buf := by
  obtain ⟨hS, hD, hwp, hrp⟩ := hwf
  unfold contents stream_buffer_available
  by_cases hc : buf.read_pos ≤ buf.write_pos <;>
    simp [hc, List.length_take, List.length_drop, hD] <;> omega

theorem length_listCopy (dst src : List Nat) (pos : Nat)
    (h : pos + src.length ≤ dst.length) :
    (listCopy dst pos src).length = dst.length := by
  unfold listCopy
  simp [List.length_take, List.length_drop]
  omega

/-- Copying a chunk that fits contiguously (`write_pos + |P| ≤ size`) and
does not run into `read_pos` appends the chunk to the unread contents. -/
theorem contents_listCopy (buf : StreamBuffer) (P : List Nat) (hwf : WF buf)
    (hP : P ≠ []) (hcontig : buf.write_pos + P.length ≤ buf.size)
    (hfit : P.length + (contents buf).length + 1 ≤ buf.size) :
    contents { buf with
               data := listCopy buf.data buf.write_pos P,
               write_pos := (buf.write_pos + P.length) % buf.size }
      = contents buf ++ P := by
  obtain ⟨hS, hD, hwp, hrp⟩ := hwf
  have hL : 0 < P.length := List.length_pos.mpr hP
  have hclen := length_contents buf ⟨hS, hD, hwp, hrp⟩
  have htakewp : (buf.data.take buf.write_pos).length = buf.write_pos := by
    simp [List.length_take]; omega
  have hAP : (buf.data.take buf.write_pos ++ P).length
      = buf.write_pos + P.length := by
    simp [htakewp]
  by_cases hcase : buf.read_pos ≤ buf.write_pos
  · -- write cursor is at or past the read cursor
    have hcval : (contents buf).length = buf.write_pos - buf.read_pos := by
      rw [hclen]; simp [stream_buffer_available, hcase]
    have hddrop : (buf.data.take buf.write_pos).drop buf.read_pos
        = contents buf := by
      rw [List.drop_take, contents, if_pos hcase]
    have hrpAP : buf.read_pos ≤ (buf.data.take buf.write_pos ++ P).length := by
      omega
    have hrpA : buf.read_pos ≤ (buf.data.take buf.write_pos).length := by
      omega
    by_cases hend : buf.write_pos + P.length < buf.size
    · -- chunk stays strictly inside the array
      have hmod : (buf.write_pos + P.length) % buf.size
          = buf.write_pos + P.length := Nat.mod_eq_of_lt hend
      rw [hmod]
      have hif : buf.read_pos ≤ buf.write_pos + P.length := by omega
      rw [contents]
      dsimp only
      rw [if_pos hif]
      unfold listCopy
      rw [List.drop_append_of_le_length hrpAP,
          List.drop_append_of_le_length hrpA]
      have htl : ((buf.data.take buf.write_pos).drop buf.read_pos ++ P).length
          = buf.write_pos + P.length - buf.read_pos := by
        simp [htakewp]; omega
      rw [List.take_left' htl, hddrop]
    · -- chunk ends exactly at the end of the array; read_pos must be ≥ 1
      have hendeq : buf.write_pos + P.length = buf.size := by omega
      have hrp1 : 1 ≤ buf.read_pos := by omega
      have hmod : (buf.write_pos + P.length) % buf.size = 0 := by
        rw [hendeq, Nat.mod_self]
      rw [hmod]
      rw [contents]
      dsimp only
      rw [if_neg (by omega : ¬ buf.read_pos ≤ 0)]
      unfold listCopy
      have hnil : buf.data.drop (buf.write_pos + P.length) = [] :=
        List.drop_eq_nil_of_le (by omega)
      rw [hnil, List.append_nil, List.take_zero, List.append_nil]
      rw [List.drop_append_of_le_length hrpA, hddrop]
  · -- write cursor is strictly before the read cursor
    have hlt : buf.write_pos < buf.read_pos := by omega
    have hcval : (contents buf).length = buf.size - buf.read_pos + buf.write_pos := by
      rw [hclen]; simp [stream_buffer_available, hcase]
    have hroom : buf.write_pos + P.length < buf.read_pos := by omega
    have hmod : (buf.write_pos + P.length) % buf.size
        = buf.write_pos + P.length := Nat.mod_eq_of_lt (by omega)
    rw [hmod]
    rw [contents]
    dsimp only
    rw [if_neg (by omega : ¬ buf.read_pos ≤ buf.write_pos + P.length)]
    unfold listCopy
    rw [List.take_left' hAP]
    rw [List.drop_append_eq_append_drop]
    have hnil : (buf.data.take buf.write_pos ++ P).drop buf.read_pos = [] :=
      List.drop_eq_nil_of_le (by omega)
    rw [hnil, List.nil_append, hAP, List.drop_drop]
    have harith : buf.write_pos + P.length + (buf.read_pos - (buf.write_pos + P.length))
        = buf.read_pos := by omega
    rw [harith]
    rw [contents, if_neg (by omega : ¬ buf.read_pos ≤ buf.write_pos)]
    rw [List.append_assoc]

theorem wf_listCopy (buf : StreamBuffer) (P : List Nat) (hwf : WF buf)
    (hcontig : buf.write_pos + P.length ≤ buf.size) :
    WF { buf with
         data := listCopy buf.data buf.write_pos P,
         write_pos := (buf.write_pos + P.length) % buf.size } := by
  obtain ⟨hS, hD, hwp, hrp⟩ := hwf
  refine ⟨hS, ?_, ?_, hrp⟩
  · show (listCopy buf.data buf.write_pos P).length = buf.size
    rw [length_listCopy buf.data P buf.write_pos (by omega)]
    exact hD
  · exact Nat.mod_lt _ hS

theorem stream_buffer_write_go_empty (fuel : Nat) (buf : StreamBuffer)
    (written : Nat) :
    stream_buffer_write_go fuel buf [] written = (buf, written) := by
  cases fuel with
  | zero => rfl
  | succ fuel => rw [stream_buffer_write_go]; simp

/-- One successful iteration of the write loop (no break, positive chunk). -/
theorem stream_buffer_write_go_step (fuel : Nat) (buf : StreamBuffer)
    (payload : List Nat) (written : Nat) (hne : payload ≠ [])
    (hnb1 : ¬ (buf.write_pos < buf.read_pos ∧
        buf.read_pos ≤ (buf.write_pos + min payload.length (buf.size - buf.write_pos)) % buf.size))
    (hnb2 : ¬ (buf.read_pos ≤ buf.write_pos ∧
        buf.read_pos ≤ (buf.write_pos + min payload.length (buf.size - buf.write_pos)) % buf.size ∧
        (buf.write_pos + min payload.length (buf.size - buf.write_pos)) % buf.size < buf.write_pos))
    (hnz : min payload.length (buf.size - buf.write_pos) ≠ 0) :
    stream_buffer_write_go (fuel + 1) buf payload written =
      stream_buffer_write_go fuel
        { buf with
          data := listCopy buf.data buf.write_pos
            (payload.take (min payload.length (buf.size - buf.write_pos))),
          write_pos := (buf.write_pos + min payload.length (buf.size - buf.write_pos)) % buf.size }
        (payload.drop (min payload.length (buf.size - buf.write_pos)))
        (written + min payload.length (buf.size - buf.write_pos)) := by
  conv_lhs => rw [stream_buffer_write_go]
  simp only [List.isEmpty_eq_true, hne, if_false]
  rw [if_neg hnb1, if_neg hnb2, if_neg hnz]

/-- Lemma: `stream_buffer_write_go` on a payload that fits in the free space
(`size - 1 - available` bytes) stores the whole payload, returning
`written + |payload|`, and appends it to the unread contents. -/
theorem stream_buffer_write_go_spec (n : Nat) :
    ∀ (payload : List Nat) (buf : StreamBuffer) (written : Nat),
      payload.length ≤ n → WF buf →
      payload.length + (contents buf).length + 1 ≤ buf.size →
      ∃ buf',
        stream_buffer_write_go n buf payload written = (buf', written + payload.length) ∧
        WF buf' ∧ buf'.size = buf.size ∧ buf'.read_pos = buf.read_pos ∧
        contents buf' = contents buf ++ payload := by
  induction n with
  | zero =>
    intro payload buf written hn hwf hfit
    have hnil : payload = [] := List.eq_nil_of_length_eq_zero (by omega)
    subst hnil
    exact ⟨buf, by rw [stream_buffer_write_go_empty 0]; simp, hwf, rfl, rfl, by simp⟩
  | succ n ih =>
    intro payload buf written hn hwf hfit
    by_cases hne : payload = []
    · subst hne
      exact ⟨buf, by rw [stream_buffer_write_go_empty (n + 1)]; simp, hwf, rfl, rfl, by simp⟩
    · have hS : 0 < buf.size := hwf.1
      have hwp : buf.write_pos < buf.size := hwf.2.2.1
      have hrp : buf.read_pos < buf.size := hwf.2.2.2
      have hlen1 : 0 < payload.length := List.length_pos.mpr hne
      set tw := min payload.length (buf.size - buf.write_pos) with htw
      have htw1 : 1 ≤ tw := by omega
      have htwle : tw ≤ payload.length := by omega
      have hcontig : buf.write_pos + tw ≤ buf.size := by omega
      have hclen := length_contents buf hwf
      have hcl2 : (buf.read_pos ≤ buf.write_pos ∧
            (contents buf).length = buf.write_pos - buf.read_pos) ∨
          (buf.write_pos < buf.read_pos ∧
            (contents buf).length = buf.size - buf.read_pos + buf.write_pos) := by
        by_cases hcase : buf.read_pos ≤ buf.write_pos
        · exact Or.inl ⟨hcase, by rw [hclen]; simp [stream_buffer_available, hcase]⟩
        · exact Or.inr ⟨by omega, by rw [hclen]; simp [stream_buffer_available, hcase]⟩
      have hmod : (buf.write_pos + tw) % buf.size = buf.write_pos + tw ∨
          (buf.write_pos + tw = buf.size ∧ (buf.write_pos + tw) % buf.size = 0) := by
        rcases Nat.lt_or_ge (buf.write_pos + tw) buf.size with h | h
        · exact Or.inl (Nat.mod_eq_of_lt h)
        · have heq : buf.write_pos + tw = buf.size := by omega
          exact Or.inr ⟨heq, by rw [heq, Nat.mod_self]⟩
      have hnb1 : ¬ (buf.write_pos < buf.read_pos ∧
          buf.read_pos ≤ (buf.write_pos + tw) % buf.size) := by
        rcases hcl2 with ⟨h1, h2⟩ | ⟨h1, h2⟩ <;>
          rcases hmod with hm | ⟨hm1, hm2⟩ <;> omega
      have hnb2 : ¬ (buf.read_pos ≤ buf.write_pos ∧
          buf.read_pos ≤ (buf.write_pos + tw) % buf.size ∧
          (buf.write_pos + tw) % buf.size < buf.write_pos) := by
        rcases hcl2 with ⟨h1, h2⟩ | ⟨h1, h2⟩ <;>
          rcases hmod with hm | ⟨hm1, hm2⟩ <;> omega
      rw [stream_buffer_write_go_step n buf payload written hne
          (by rw [← htw]; exact hnb1) (by rw [← htw]; exact hnb2)
          (by rw [← htw]; omega)]
      rw [← htw]
      have hPlen : (payload.take tw).length = tw := by
        simp [List.length_take]; omega
      have hPne : payload.take tw ≠ [] := by
        intro hcontra
        have := congrArg List.length hcontra
        rw [hPlen] at this
        simp at this
        omega
      have hwf1 := wf_listCopy buf (payload.take tw) hwf (by omega)
      have hcon1 := contents_listCopy buf (payload.take tw) hwf hPne
        (by omega) (by omega)
      rw [hPlen] at hwf1 hcon1
      obtain ⟨buf', heq, hwf', hsz', hrp', hcont'⟩ :=
        ih (payload.drop tw)
          { buf with
            data := listCopy buf.data buf.write_pos (payload.take tw),
            write_pos := (buf.write_pos + tw) % buf.size }
          (written + tw)
          (by simp [List.length_drop]; omega)
          hwf1
          (by
            show (payload.drop tw).length + (contents _).length + 1 ≤ buf.size
            rw [hcon1]
            simp [List.length_drop, List.length_append, hPlen]
            omega)
      refine ⟨buf', ?_, hwf', hsz', hrp', ?_⟩
      · rw [heq]
        have : written + tw + (payload.drop tw).length = written + payload.length := by
          simp [List.length_drop]; omega
        rw [this]
      · rw [hcont', hcon1, List.append_assoc, List.take_append_drop]

theorem stream_buffer_read_go_exit (fuel : Nat) (buf : StreamBuffer)
    (len : Nat) (acc : List Nat)
    (h : len = 0 ∨ buf.read_pos = buf.write_pos) :
    stream_buffer_read_go fuel buf len acc = (buf, acc) := by
  cases fuel with
  | zero => rfl
  | succ fuel => rw [stream_buffer_read_go, if_pos h]

/-- One iteration of the read loop (loop guard holds, positive chunk). -/
theorem stream_buffer_read_go_step (fuel : Nat) (buf : StreamBuffer)
    (len : Nat) (acc : List Nat)
    (hg : ¬ (len = 0 ∨ buf.read_pos = buf.write_pos))
    (hnz : min len (if buf.read_pos < buf.write_pos then
        buf.write_pos - buf.read_pos else buf.size - buf.read_pos) ≠ 0) :
    stream_buffer_read_go (fuel + 1) buf len acc =
      stream_buffer_read_go fuel
        { buf with read_pos := (buf.read_pos + min len
            (if buf.read_pos < buf.write_pos then buf.write_pos - buf.read_pos
             else buf.size - buf.read_pos)) % buf.size }
        (len - min len (if buf.read_pos < buf.write_pos then
            buf.write_pos - buf.read_pos else buf.size - buf.read_pos))
        (acc ++ (buf.data.drop buf.read_pos).take (min len
            (if buf.read_pos < buf.write_pos then buf.write_pos - buf.read_pos
             else buf.size - buf.read_pos))) := by
  conv_lhs => rw [stream_buffer_read_go]
  rw [if_neg hg, if_neg hnz]

/-- Consuming a positive chunk bounded by the contiguous available span
moves `read_pos` forward and drops the chunk from the unread contents. -/
theorem contents_read_chunk (buf : StreamBuffer) (tr : Nat) (hwf : WF buf)
    (hne : buf.read_pos ≠ buf.write_pos) (htr : 1 ≤ tr)
    (hbound : tr ≤ if buf.read_pos < buf.write_pos then
        buf.write_pos - buf.read_pos else buf.size - buf.read_pos) :
    (buf.data.drop buf.read_pos).take tr = (contents buf).take tr ∧
    WF { buf with read_pos := (buf.read_pos + tr) % buf.size } ∧
    contents { buf with read_pos := (buf.read_pos + tr) % buf.size }
      = (contents buf).drop tr := by
  obtain ⟨hS, hD, hwp, hrp⟩ := hwf
  have hdroplen : (buf.data.drop buf.read_pos).length = buf.size - buf.read_pos := by
    simp [List.length_drop, hD]
  by_cases hcase : buf.read_pos < buf.write_pos
  · -- contiguous region, no wrap
    rw [if_pos hcase] at hbound
    have hmod : (buf.read_pos + tr) % buf.size = buf.read_pos + tr :=
      Nat.mod_eq_of_lt (by omega)
    have hcont : contents buf
        = (buf.data.drop buf.read_pos).take (buf.write_pos - buf.read_pos) := by
      rw [contents, if_pos (by omega)]
    refine ⟨?_, ⟨hS, hD, hwp, by dsimp only; omega⟩, ?_⟩
    · rw [hcont, List.take_take]
      congr 1
      omega
    · rw [hmod, hcont, contents]
      dsimp only
      rw [if_pos (by omega : buf.read_pos + tr ≤ buf.write_pos)]
      rw [List.drop_take, List.drop_drop]
      congr 1
      omega
  · -- read cursor past write cursor: region wraps at the end of the array
    have hgt : buf.write_pos < buf.read_pos := by omega
    rw [if_neg hcase] at hbound
    have hcont : contents buf
        = buf.data.drop buf.read_pos ++ buf.data.take buf.write_pos := by
      rw [contents, if_neg (by omega)]
    have htake : (contents buf).take tr = (buf.data.drop buf.read_pos).take tr := by
      rw [hcont, List.take_append_of_le_length (by omega)]
    have hdropc : (contents buf).drop tr
        = buf.data.drop (buf.read_pos + tr) ++ buf.data.take buf.write_pos := by
      rw [hcont, List.drop_append_of_le_length (by omega), List.drop_drop,
          Nat.add_comm]
    by_cases hend : buf.read_pos + tr < buf.size
    · have hmod : (buf.read_pos + tr) % buf.size = buf.read_pos + tr :=
        Nat.mod_eq_of_lt hend
      refine ⟨htake.symm, ⟨hS, hD, hwp, by dsimp only; omega⟩, ?_⟩
      rw [hmod, hdropc, contents]
      dsimp only
      rw [if_neg (by omega : ¬ buf.read_pos + tr ≤ buf.write_pos)]
    · have hendeq : buf.read_pos + tr = buf.size := by omega
      have hmod : (buf.read_pos + tr) % buf.size = 0 := by
        rw [hendeq, Nat.mod_self]
      refine ⟨htake.symm, ⟨hS, hD, hwp, by dsimp only; omega⟩, ?_⟩
      rw [hmod, hdropc, contents]
      dsimp only
      rw [if_pos (by omega : 0 ≤ buf.write_pos), hendeq,
          List.drop_eq_nil_of_le (show buf.data.length ≤ buf.size by omega),
          List.nil_append, List.drop_zero]
      simp

/-- Lemma: `stream_buffer_read_go` returns the first `len` unread bytes (in FIFO
order) appended to `acc`, consuming them from the buffer. -/
theorem stream_buffer_read_go_spec (n : Nat) :
    ∀ (len : Nat) (buf : StreamBuffer) (acc : List Nat),
      len ≤ n → WF buf →
      ∃ buf',
        stream_buffer_read_go n buf len acc
          = (buf', acc ++ (contents buf).take len) ∧
        WF buf' ∧ buf'.size = buf.size ∧ buf'.write_pos = buf.write_pos ∧
        buf'.data = buf.data ∧ contents buf' = (contents buf).drop len := by
  induction n with
  | zero =>
    intro len buf acc hn hwf
    have h0 : len = 0 := by omega
    subst h0
    exact ⟨buf, by rw [stream_buffer_read_go_exit 0 buf 0 acc (Or.inl rfl)]; simp,
      hwf, rfl, rfl, rfl, by simp⟩
  | succ n ih =>
    intro len buf acc hn hwf
    by_cases h0 : len = 0
    · subst h0
      exact ⟨buf, by rw [stream_buffer_read_go_exit (n + 1) buf 0 acc (Or.inl rfl)]; simp,
        hwf, rfl, rfl, rfl, by simp⟩
    · by_cases hemp : buf.read_pos = buf.write_pos
      · have hcnil : contents buf = [] := by
          rw [contents, if_pos (le_of_eq hemp), hemp]
          simp
        refine ⟨buf, ?_, hwf, rfl, rfl, rfl, by rw [hcnil]; simp⟩
        rw [stream_buffer_read_go_exit (n + 1) buf len acc (Or.inr hemp), hcnil]
        simp
      · have hS : 0 < buf.size := hwf.1
        have hwp : buf.write_pos < buf.size := hwf.2.2.1
        have hrp : buf.read_pos < buf.size := hwf.2.2.2
        set a2e := if buf.read_pos < buf.write_pos then
            buf.write_pos - buf.read_pos else buf.size - buf.read_pos with ha2e
        have ha2e1 : 1 ≤ a2e := by
          rw [ha2e]; split <;> omega
        set tr := min len a2e with htr
        have htr1 : 1 ≤ tr := by omega
        have htrle : tr ≤ len := by omega
        rw [stream_buffer_read_go_step n buf len acc
            (by push_neg; exact ⟨h0, hemp⟩) (by rw [← ha2e, ← htr]; omega)]
        rw [← ha2e, ← htr]
        obtain ⟨hchunk, hwf1, hcont1⟩ :=
          contents_read_chunk buf tr hwf hemp htr1 (by rw [← ha2e]; omega)
        obtain ⟨buf', heq, hwf', hsz', hwp', hdata', hcont'⟩ :=
          ih (len - tr)
            { buf with read_pos := (buf.read_pos + tr) % buf.size }
            (acc ++ (buf.data.drop buf.read_pos).take tr)
            (by omega) hwf1
        refine ⟨buf', ?_, hwf', hsz', hwp', hdata', ?_⟩
        · rw [heq, hcont1, hchunk]
          rw [List.append_assoc]
          have hlen : len = tr + (len - tr) := by omega
          congr 2
          conv_rhs => rw [hlen, List.take_add]
        · rw [hcont', hcont1, List.drop_drop]
          congr 1
          omega

/-- Lemma: `stream_buffer_write` on a payload that fits in the free space stores
all of it and appends it to the unread contents. -/
theorem stream_buffer_write_spec (buf : StreamBuffer) (payload : List Nat)
    (hwf : WF buf)
    (hfit : payload.length + (contents buf).length + 1 ≤ buf.size) :
    ∃ buf',
      stream_buffer_write buf payload = (buf', payload.length) ∧
      WF buf' ∧ buf'.size = buf.size ∧ buf'.read_pos = buf.read_pos ∧
      contents buf' = contents buf ++ payload := by
  obtain ⟨buf', heq, h1, h2, h3, h4⟩ :=
    stream_buffer_write_go_spec payload.length payload buf 0 (le_refl _) hwf hfit
  exact ⟨buf', by rw [stream_buffer_write, heq]; simp, h1, h2, h3, h4⟩

/-- Lemma: `stream_buffer_read` returns the first `len` unread bytes and consumes
them; in particular it returns `[]` on an empty buffer. -/
theorem stream_buffer_read_spec (buf : StreamBuffer) (len : Nat)
    (hwf : WF buf) :
    ∃ buf',
      stream_buffer_read buf len = (buf', (contents buf).take len) ∧
      WF buf' ∧ buf'.size = buf.size ∧ buf'.write_pos = buf.write_pos ∧
      buf'.data = buf.data ∧ contents buf' = (contents buf).drop len := by
  obtain ⟨buf', heq, h1, h2, h3, h4, h5⟩ :=
    stream_buffer_read_go_spec len len buf [] (le_refl _) hwf
  exact ⟨buf', by rw [stream_buffer_read, heq]; simp, h1, h2, h3, h4, h5⟩

/-- Main FIFO invariant: bytes read so far, followed by the unread
contents, equal the bytes written so far. -/
theorem run_ops_spec :
    ∀ (ops : List BufOp) (buf : StreamBuffer), WF buf → ops_fit buf ops = true →
      WF (run_ops buf ops).1 ∧
      (run_ops buf ops).1.size = buf.size ∧
      (run_ops buf ops).2.2 ++ contents (run_ops buf ops).1
        = contents buf ++ (run_ops buf ops).2.1 := by
  intro ops
  induction ops with
  | nil =>
    intro buf hwf hfit
    exact ⟨hwf, rfl, by simp [run_ops]⟩
  | cons op rest ih =>
    intro buf hwf hfit
    cases op with
    | write p =>
      rw [ops_fit, Bool.and_eq_true, decide_eq_true_eq] at hfit
      obtain ⟨buf', heq, hwf', hsz', hrp', hcont'⟩ :=
        stream_buffer_write_spec buf p hwf hfit.1
      have hb : (stream_buffer_write buf p).1 = buf' := by rw [heq]
      obtain ⟨ih1, ih2, ih3⟩ := ih buf' hwf' (by rw [← hb]; exact hfit.2)
      simp only [run_ops, hb]
      refine ⟨ih1, by rw [ih2, hsz'], ?_⟩
      rw [ih3, hcont', List.append_assoc]
    | read n =>
      rw [ops_fit] at hfit
      obtain ⟨buf', heq, hwf', hsz', hwp', hdata', hcont'⟩ :=
        stream_buffer_read_spec buf n hwf
      have hb : (stream_buffer_read buf n).1 = buf' := by rw [heq]
      have hout : (stream_buffer_read buf n).2 = (contents buf).take n := by
        rw [heq]
      obtain ⟨ih1, ih2, ih3⟩ := ih buf' hwf' (by rw [← hb]; exact hfit)
      simp only [run_ops, hb, hout]
      refine ⟨ih1, by rw [ih2, hsz'], ?_⟩
      rw [List.append_assoc, ih3, hcont', ← List.append_assoc,
          List.take_append_drop]

theorem stream_buffer_write_go_break2 (fuel : Nat) (buf : StreamBuffer)
    (payload : List Nat) (written : Nat) (hne : payload ≠ [])
    (hnb1 : ¬ (buf.write_pos < buf.read_pos ∧
        buf.read_pos ≤ (buf.write_pos + min payload.length (buf.size - buf.write_pos)) % buf.size))
    (hb2 : buf.read_pos ≤ buf.write_pos ∧
        buf.read_pos ≤ (buf.write_pos + min payload.length (buf.size - buf.write_pos)) % buf.size ∧
        (buf.write_pos + min payload.length (buf.size - buf.write_pos)) % buf.size < buf.write_pos) :
    stream_buffer_write_go (fuel + 1) buf payload written = (buf, written) := by
  conv_lhs => rw [stream_buffer_write_go]
  simp only [List.isEmpty_eq_true, hne, if_false]
  rw [if_neg hnb1, if_pos hb2]

/-- A write into a fresh buffer of a payload no longer than the capacity
stores the whole payload in one chunk and reports its full length — even
when the payload exactly fills the capacity, in which case `write_pos`
wraps back to `read_pos = 0`. -/
theorem stream_buffer_write_fresh (size : Nat) (payload : List Nat)
    (hS : 0 < size) (hle : payload.length ≤ size) :
    stream_buffer_write (stream_buffer_new size) payload
      = ({ size := size,
           data := payload ++ List.replicate (size - payload.length) 0,
           write_pos := payload.length % size,
           read_pos := 0 }, payload.length) := by
  by_cases hne : payload = []
  · subst hne
    rw [stream_buffer_write, stream_buffer_write_go_empty]
    simp [stream_buffer_new]
  · have hlpos : 0 < payload.length := List.length_pos.mpr hne
    obtain ⟨k, hk⟩ : ∃ k, payload.length = k + 1 := ⟨payload.length - 1, by omega⟩
    rw [stream_buffer_write]
    conv_lhs => rw [hk]
    rw [stream_buffer_write_go_step k (stream_buffer_new size) payload 0 hne
          (by simp [stream_buffer_new])
          (by simp [stream_buffer_new])
          (by
            show min payload.length
              ((stream_buffer_new size).size - (stream_buffer_new size).write_pos) ≠ 0
            have h1 : (stream_buffer_new size).size = size := rfl
            have h2 : (stream_buffer_new size).write_pos = 0 := rfl
            rw [h1, h2]
            omega)]
    have htw : min payload.length
        ((stream_buffer_new size).size - (stream_buffer_new size).write_pos)
        = payload.length := by
      simp [stream_buffer_new]; omega
    rw [htw]
    have hdrop : payload.drop payload.length = [] := by simp
    rw [hdrop, stream_buffer_write_go_empty]
    have hdata : listCopy (stream_buffer_new size).data
        (stream_buffer_new size).write_pos (payload.take payload.length)
        = payload ++ List.replicate (size - payload.length) 0 := by
      simp [listCopy, stream_buffer_new, List.drop_replicate]
    rw [hdata]
    simp [stream_buffer_new]

/-- A write against `read_pos = 0 < write_pos` whose first chunk reaches the
end of the array is refused entirely: the loop breaks with nothing stored,
whatever free space remains. -/
theorem stream_buffer_write_blocked (buf : StreamBuffer) (payload : List Nat)
    (hrp : buf.read_pos = 0) (hwp0 : 0 < buf.write_pos)
    (hwpS : buf.write_pos < buf.size)
    (hlen : buf.size - buf.write_pos ≤ payload.length) :
    stream_buffer_write buf payload = (buf, 0) := by
  have hne : payload ≠ [] := by
    intro h
    subst h
    simp at hlen
    omega
  have htw : min payload.length (buf.size - buf.write_pos)
      = buf.size - buf.write_pos := by omega
  have hnw : (buf.write_pos + min payload.length (buf.size - buf.write_pos))
      % buf.size = 0 := by
    rw [htw]
    have h : buf.write_pos + (buf.size - buf.write_pos) = buf.size := by omega
    rw [h, Nat.mod_self]
  have hlpos : 0 < payload.length := by
    have : 0 < buf.size - buf.write_pos := by omega
    omega
  obtain ⟨k, hk⟩ : ∃ k, payload.length = k + 1 := ⟨payload.length - 1, by omega⟩
  rw [stream_buffer_write]
  conv_lhs => rw [hk]
  rw [stream_buffer_write_go_break2 k buf payload 0 hne (by omega) (by omega)]

theorem scan_advance_timeout_some (c : ScanControls) (st : ScanState)
    (s : ScanStep) (hc : c.scan_st = some st) (hscan : st.scanning = true) :
    scan_advance_timeout c (some s)
      = ({ c with scan_st := some (scan_step_update st s) }, true) := by
  simp [scan_advance_timeout, hc, hscan, scan_step_update]

theorem scan_step_update_scanning (st : ScanState) (s : ScanStep) :
    (scan_step_update st s).scanning = st.scanning := by
  unfold scan_step_update
  dsimp only
  split <;> rfl

theorem scan_step_update_found (st : ScanState) (s : ScanStep) :
    (scan_step_update st s).found_channels
      = st.found_channels ++ detected_channels s := by
  unfold scan_step_update
  dsimp only
  split
  · rfl
  · rename_i h
    rw [detected_channels, if_neg h]
    simp

theorem scan_step_update_scanned (st : ScanState) (s : ScanStep) :
    (scan_step_update st s).channels_scanned = st.channels_scanned + 1 := by
  unfold scan_step_update
  dsimp only
  split <;> rfl

/-- Driving the scheduled callback from a scanning state consumes the whole
stub, increments `channels_scanned` once per successful advance, appends
the detected channels in order, and finishes through the completion branch
(flag cleared, timeout id cleared, catalog rebuilt). -/
theorem run_scan_loop_spec :
    ∀ (hw : List ScanStep) (c : ScanControls) (st : ScanState),
      c.scan_st = some st → st.scanning = true →
      ∃ st1,
        run_scan_loop c hw
          = populate_saved_channels
              { c with scan_st := some st1, scan_button_sensitive := true } ∧
        st1.scanning = false ∧ st1.scan_timeout_id = 0 ∧
        st1.found_channels
          = st.found_channels ++ hw.flatMap detected_channels ∧
        st1.channels_scanned = st.channels_scanned + hw.length := by
  intro hw
  induction hw with
  | nil =>
    intro c st hc hscan
    refine ⟨{ st with
              scan_status_label := st.scan_status_label.map (fun _ =>
                "Scan complete! Found " ++ toString st.found_channels.length
                  ++ " channel(s)"),
              scan_cancel_button_label :=
                st.scan_cancel_button_label.map (fun _ => "Close"),
              scanning := false, scan_timeout_id := 0 },
            ?_, rfl, rfl, by simp, rfl⟩
    show (scan_advance_timeout c none).1 = _
    simp [scan_advance_timeout, hc, hscan]
  | cons s rest ih =>
    intro c st hc hscan
    have hstep := scan_advance_timeout_some c st s hc hscan
    have hrun : run_scan_loop c (s :: rest)
        = run_scan_loop { c with scan_st := some (scan_step_update st s) } rest := by
      rw [run_scan_loop, hstep]
      simp
    obtain ⟨st1, heq, h1, h2, h3, h4⟩ :=
      ih { c with scan_st := some (scan_step_update st s) } (scan_step_update st s)
        rfl (by rw [scan_step_update_scanning]; exact hscan)
    refine ⟨st1, ?_, h1, h2, ?_, ?_⟩
    · rw [hrun, heq]
    · rw [h3, scan_step_update_found, List.append_assoc]
      simp
    · rw [h4, scan_step_update_scanned]
      simp
      omega

/-- A fired callback on a control whose scan is not in progress (NULL scan
state, or `scanning` false) does nothing and does not reschedule. -/
theorem scan_advance_timeout_idle (c : ScanControls) (adv : Option ScanStep)
    (h : scan_in_progress c = false) :
    scan_advance_timeout c adv = (c, false) := by
  unfold scan_advance_timeout
  cases hc : c.scan_st with
  | none => rfl
  | some st =>
    have hs : st.scanning = false := by
      unfold scan_in_progress at h
      rw [hc] at h
      simpa using h
    simp [hs]

theorem stop_scan_not_in_progress (c : ScanControls) :
    scan_in_progress (stop_channel_scan c) = false := by
  unfold stop_channel_scan scan_in_progress
  cases hc : c.scan_st <;> simp [hc]

theorem run_scan_loop_idle (c : ScanControls) (hw : List ScanStep)
    (h : scan_in_progress c = false) :
    run_scan_loop c hw = c := by
  cases hw with
  | nil =>
    rw [run_scan_loop, scan_advance_timeout_idle c none h]
  | cons s rest =>
    rw [run_scan_loop, scan_advance_timeout_idle c (some s) h]
    simp

/-- Reading from a buffer with no unread bytes returns the buffer unchanged
and no bytes. -/
theorem stream_buffer_read_of_empty (buf : StreamBuffer) (n : Nat)
    (hwf : WF buf) (hc : contents buf = []) :
    stream_buffer_read buf n = (buf, []) := by
  obtain ⟨hS, hD, hwp, hrp⟩ := hwf
  have hlen : (contents buf).length = 0 := by rw [hc]; rfl
  rw [length_contents buf ⟨hS, hD, hwp, hrp⟩] at hlen
  unfold stream_buffer_available at hlen
  have heq : buf.read_pos = buf.write_pos := by
    by_cases hcase : buf.read_pos ≤ buf.write_pos
    · rw [if_pos hcase] at hlen; omega
    · rw [if_neg hcase] at hlen; omega
  rw [stream_buffer_read, stream_buffer_read_go_exit n buf n [] (Or.inr heq)]

theorem contents_stream_buffer_new (size : Nat) :
    contents (stream_buffer_new size) = [] := by
  simp [contents, stream_buffer_new]

/-- Under successful detects, mapping the scan records to `SavedChannel`s
(as `populate_saved_channels` does) yields exactly the spec-side catalog. -/
theorem map_detected_eq_expected (hw : List ScanStep)
    (hdet : ∀ s ∈ hw, 0 < s.detectRet) :
    (hw.flatMap detected_channels).map (fun sc =>
        ({ channel_str := sc.channel_str, name := sc.name,
           frequency := sc.frequency } : SavedChannel))
      = expected_saved hw := by
  induction hw with
  | nil => simp [expected_saved]
  | cons s rest ih =>
    have hs : 0 < s.detectRet := hdet s (by simp)
    have hrest : ∀ t ∈ rest, 0 < t.detectRet := by
      intro t ht
      exact hdet t (by simp [ht])
    have hstep : (detected_channels s).map (fun sc =>
        ({ channel_str := sc.channel_str, name := sc.name,
           frequency := sc.frequency } : SavedChannel))
        = (s.programs.filter (fun p => p.1 ≠ "")).map (fun p =>
            ({ channel_str := p.1,
               name := if p.2 = "" then none else some p.2,
               frequency := s.frequency } : SavedChannel)) := by
      unfold detected_channels
      by_cases hp : 0 < s.programs.length
      · rw [if_pos ⟨hs, hp⟩, List.map_map]
        rfl
      · rw [if_neg (by intro hcontra; exact hp hcontra.2)]
        have hnil : s.programs = [] := by
          cases hq : s.programs with
          | nil => rfl
          | cons a l => rw [hq] at hp; simp at hp
        rw [hnil]
        simp
    have hcons : expected_saved (s :: rest)
        = (s.programs.filter (fun p => p.1 ≠ "")).map (fun p =>
            ({ channel_str := p.1,
               name := if p.2 = "" then none else some p.2,
               frequency := s.frequency } : SavedChannel)) ++ expected_saved rest := by
      unfold expected_saved
      exact List.flatMap_cons _ _ _
    simp only [List.flatMap_cons, List.map_append]
    rw [hstep, ih hrest, hcons]

/-- C1: the claim says a write of L bytes against free space f < L stores
exactly the first f bytes and returns f.  The code disagrees: with
`read_pos = 0`, `write_pos = STREAM_BUFFER_SIZE - 6` (free space 5), a
6-byte write hits the wrapped-full break before copying anything and
returns 0, leaving the buffer unchanged — the 5 free bytes are not used.
The first write below (which fills all but 6 bytes of a fresh buffer)
returns its full length; the conjuncts then exhibit the free space of 5
and the refused 6-byte write. -/
theorem c1_write_truncation_drops_whole_chunk :
    (stream_buffer_write (stream_buffer_new STREAM_BUFFER_SIZE)
        (List.replicate (STREAM_BUFFER_SIZE - 6) 1)).2
      = STREAM_BUFFER_SIZE - 6 ∧
    STREAM_BUFFER_SIZE - 1 -
      stream_buffer_available
        (stream_buffer_write (stream_buffer_new STREAM_BUFFER_SIZE)
          (List.replicate (STREAM_BUFFER_SIZE - 6) 1)).1 = 5 ∧
    stream_buffer_write
        (stream_buffer_write (stream_buffer_new STREAM_BUFFER_SIZE)
          (List.replicate (STREAM_BUFFER_SIZE - 6) 1)).1
        (List.replicate 6 1)
      = ((stream_buffer_write (stream_buffer_new STREAM_BUFFER_SIZE)
          (List.replicate (STREAM_BUFFER_SIZE - 6) 1)).1, 0) := by
  have hlen : (List.replicate (STREAM_BUFFER_SIZE - 6) 1).length
      = STREAM_BUFFER_SIZE - 6 := by simp
  have h1 := stream_buffer_write_fresh STREAM_BUFFER_SIZE
    (List.replicate (STREAM_BUFFER_SIZE - 6) 1)
    (by norm_num [STREAM_BUFFER_SIZE]) (by rw [hlen]; omega)
  rw [hlen] at h1
  have hmod : (STREAM_BUFFER_SIZE - 6) % STREAM_BUFFER_SIZE
      = STREAM_BUFFER_SIZE - 6 :=
    Nat.mod_eq_of_lt (by norm_num [STREAM_BUFFER_SIZE])
  rw [hmod] at h1
  refine ⟨by rw [h1], ?_, ?_⟩
  · rw [h1]
    show STREAM_BUFFER_SIZE - 1 -
      stream_buffer_available
        { size := STREAM_BUFFER_SIZE,
          data := List.replicate (STREAM_BUFFER_SIZE - 6) 1
            ++ List.replicate (STREAM_BUFFER_SIZE - (STREAM_BUFFER_SIZE - 6)) 0,
          write_pos := STREAM_BUFFER_SIZE - 6, read_pos := 0 } = 5
    rw [stream_buffer_available]
    norm_num [STREAM_BUFFER_SIZE]
  · rw [h1]
    exact stream_buffer_write_blocked _ _ rfl
      (by show (0:Nat) < STREAM_BUFFER_SIZE - 6; norm_num [STREAM_BUFFER_SIZE])
      (by show STREAM_BUFFER_SIZE - 6 < STREAM_BUFFER_SIZE; norm_num [STREAM_BUFFER_SIZE])
      (by
        show STREAM_BUFFER_SIZE - (STREAM_BUFFER_SIZE - 6)
          ≤ (List.replicate 6 1).length
        simp [STREAM_BUFFER_SIZE])

/-- C2: the claim (the spec invariant) says a write never advances
`write_pos` onto `read_pos` while bytes it stored remain unconsumed.  The
code violates it: a write of exactly `STREAM_BUFFER_SIZE` bytes into a
fresh buffer passes both full checks, stores all bytes, returns the full
length — and wraps `write_pos` back to `read_pos`, so the buffer reports 0
available bytes while 2 MiB just stored remain unread. -/
theorem c2_full_capacity_write_breaks_emptiness_invariant :
    (stream_buffer_write (stream_buffer_new STREAM_BUFFER_SIZE)
        (List.replicate STREAM_BUFFER_SIZE 1)).2 = STREAM_BUFFER_SIZE ∧
    (stream_buffer_write (stream_buffer_new STREAM_BUFFER_SIZE)
        (List.replicate STREAM_BUFFER_SIZE 1)).1.write_pos
      = (stream_buffer_write (stream_buffer_new STREAM_BUFFER_SIZE)
          (List.replicate STREAM_BUFFER_SIZE 1)).1.read_pos ∧
    stream_buffer_available
        (stream_buffer_write (stream_buffer_new STREAM_BUFFER_SIZE)
          (List.replicate STREAM_BUFFER_SIZE 1)).1 = 0 ∧
    contents
        (stream_buffer_write (stream_buffer_new STREAM_BUFFER_SIZE)
          (List.replicate STREAM_BUFFER_SIZE 1)).1 = [] := by
  have hlen : (List.replicate STREAM_BUFFER_SIZE 1).length
      = STREAM_BUFFER_SIZE := by simp
  have h1 := stream_buffer_write_fresh STREAM_BUFFER_SIZE
    (List.replicate STREAM_BUFFER_SIZE 1)
    (by norm_num [STREAM_BUFFER_SIZE]) (by rw [hlen])
  rw [hlen, Nat.mod_self] at h1
  refine ⟨by rw [h1], by rw [h1], by rw [h1]; rfl, by rw [h1]; rfl⟩

/-- C3: starting from an empty buffer, for any operation sequence whose
writes each fit in the free space at their call time, the bytes returned
by the reads so far followed by the still-unread contents are exactly the
bytes written so far (FIFO order, every byte delivered exactly once); and
a read once the buffer is empty returns no bytes and leaves it unchanged. -/
theorem c3_fifo_roundtrip (size n : Nat) (ops : List BufOp) (hS : 0 < size)
    (hfit : ops_fit (stream_buffer_new size) ops = true) :
    (run_ops (stream_buffer_new size) ops).2.2
        ++ contents (run_ops (stream_buffer_new size) ops).1
      = (run_ops (stream_buffer_new size) ops).2.1 ∧
    (contents (run_ops (stream_buffer_new size) ops).1 = [] →
      stream_buffer_read (run_ops (stream_buffer_new size) ops).1 n
        = ((run_ops (stream_buffer_new size) ops).1, [])) := by
  obtain ⟨hwf, hsz, hinv⟩ :=
    run_ops_spec ops (stream_buffer_new size) (wf_new size hS) hfit
  constructor
  · rw [hinv, contents_stream_buffer_new]
    simp
  · intro hempty
    exact stream_buffer_read_of_empty _ n hwf hempty

theorem c3_fifo_roundtrip_witness :
    (0 : Nat) < 8 ∧ ops_fit (stream_buffer_new 8) c3_ops = true ∧
    (run_ops (stream_buffer_new 8) c3_ops).2.2
        ++ contents (run_ops (stream_buffer_new 8) c3_ops).1
      = (run_ops (stream_buffer_new 8) c3_ops).2.1 ∧
    contents (run_ops (stream_buffer_new 8) c3_ops).1 = [] ∧
    stream_buffer_read (run_ops (stream_buffer_new 8) c3_ops).1 5
      = ((run_ops (stream_buffer_new 8) c3_ops).1, []) := by
  refine ⟨by decide, by decide, (c3_fifo_roundtrip 8 5 c3_ops (by decide) (by decide)).1,
    by decide, (c3_fifo_roundtrip 8 5 c3_ops (by decide) (by decide)).2 (by decide)⟩

/-- C5: after `stop_channel_scan` (the cancel path), the scan is no longer
in progress and a stale scheduled `scan_advance_timeout` firing is a pure
no-op: it changes nothing (no channel appended, no counter incremented)
and does not reschedule itself, whatever the hardware would have
answered. -/
theorem c5_cancel_blocks_stale_steps (c : ScanControls) (adv : Option ScanStep) :
    scan_in_progress (stop_channel_scan c) = false ∧
    scan_advance_timeout (stop_channel_scan c) adv
      = (stop_channel_scan c, false) :=
  ⟨stop_scan_not_in_progress c,
   scan_advance_timeout_idle _ adv (stop_scan_not_in_progress c)⟩

/-- C9: selecting any index at or beyond the catalog length (including
index 0 on an empty catalog) yields "no selection": no channel token is
dispatched to the tuner, and the handler returns normally. -/
theorem c9_select_out_of_range_no_dispatch (c : ScanControls) (idx : Nat)
    (h : c.saved_channels.length ≤ idx) :
    on_channel_selected c idx = none := by
  unfold on_channel_selected
  have hget : c.saved_channels.get? idx = none := List.get?_eq_none.mpr h
  rw [hget]
  split
  · rfl
  · split <;> rfl

theorem c9_select_out_of_range_no_dispatch_witness :
    c9_controls.saved_channels.length ≤ 3 ∧
    on_channel_selected c9_controls 3 = none :=
  ⟨by decide, c9_select_out_of_range_no_dispatch c9_controls 3 (by decide)⟩

/-- C10: cancelling a scan never touches the catalog: `stop_channel_scan`
leaves `saved_channels` and the presentation labels exactly as they were,
and any stale scheduled steps afterwards leave the whole state (catalog
included) unchanged — partial results of the cancelled run are never
delivered, since the rebuild runs only in the completion branch of the
step callback. -/
theorem c10_cancel_preserves_catalog (c : ScanControls) (hw : List ScanStep) :
    (stop_channel_scan c).saved_channels = c.saved_channels ∧
    (stop_channel_scan c).channel_list = c.channel_list ∧
    run_scan_loop (stop_channel_scan c) hw = stop_channel_scan c := by
  refine ⟨?_, ?_, run_scan_loop_idle _ hw (stop_scan_not_in_progress c)⟩
  · unfold stop_channel_scan
    cases hc : c.scan_st <;> rfl
  · unfold stop_channel_scan
    cases hc : c.scan_st <;> rfl

/-- C4: against a stub hardware layer whose advance succeeds once per entry
of `hw` and then signals exhaustion, and whose detect calls succeed,
`on_scan_clicked` (begin) schedules the first step, and driving the
scheduled steps to quiescence ends with the scan no longer stepping
(status Complete via the completion branch: flag cleared, catalog
rebuilt), `channels_scanned` equal to the number of successful advances,
and the rebuilt catalog holding exactly one `SavedChannel` per reported
program with a non-empty virtual-channel identifier, in scan order,
programs with an empty identifier skipped. -/
theorem c4_scan_complete_catalog (c : ScanControls) (sel tid : Nat)
    (hw : List ScanStep) (hdev : c.hd_device = true)
    (hidle : c.scan_st = none) (hdet : ∀ s ∈ hw, 0 < s.detectRet) :
    (on_scan_clicked c sel 0 tid).2 = true ∧
    scan_in_progress (run_scan_loop (on_scan_clicked c sel 0 tid).1 hw) = false ∧
    scan_channels_scanned (run_scan_loop (on_scan_clicked c sel 0 tid).1 hw)
      = hw.length ∧
    (run_scan_loop (on_scan_clicked c sel 0 tid).1 hw).saved_channels
      = expected_saved hw := by
  have hsip : scan_in_progress c = false := by
    unfold scan_in_progress
    rw [hidle]
  have hbegin : on_scan_clicked c sel 0 tid
      = ({ c with
           scan_st := some { scan_state_new with
                             found_channels := [],
                             channels_scanned := 0,
                             channels_total := channelmap_estimated sel,
                             scan_dialog := true,
                             scan_status_label := some "Initializing scan...",
                             scan_cancel_button_label := some "Cancel",
                             scanning := true,
                             scan_timeout_id := tid },
           scan_button_sensitive := false }, true) := by
    unfold on_scan_clicked
    rw [hidle]
    simp [hdev, hsip, scan_in_progress, hidle]
  rw [hbegin]
  obtain ⟨st1, heq, hsc, hti, hfound, hcount⟩ :=
    run_scan_loop_spec hw
      { c with
        scan_st := some { scan_state_new with
                          found_channels := [],
                          channels_scanned := 0,
                          channels_total := channelmap_estimated sel,
                          scan_dialog := true,
                          scan_status_label := some "Initializing scan...",
                          scan_cancel_button_label := some "Cancel",
                          scanning := true,
                          scan_timeout_id := tid },
        scan_button_sensitive := false }
      { scan_state_new with
        found_channels := [],
        channels_scanned := 0,
        channels_total := channelmap_estimated sel,
        scan_dialog := true,
        scan_status_label := some "Initializing scan...",
        scan_cancel_button_label := some "Cancel",
        scanning := true,
        scan_timeout_id := tid }
      rfl rfl
  rw [heq]
  refine ⟨rfl, ?_, ?_, ?_⟩
  · simp [scan_in_progress, populate_saved_channels, hsc]
  · simp [scan_channels_scanned, populate_saved_channels, hcount]
  · show (populate_saved_channels _).saved_channels = expected_saved hw
    unfold populate_saved_channels
    dsimp only
    rw [hfound]
    dsimp only
    rw [List.nil_append]
    exact map_detected_eq_expected hw hdet

theorem c4_scan_complete_catalog_witness :
    c4_controls.hd_device = true ∧ c4_controls.scan_st = none ∧
    (∀ s ∈ c4_hw, 0 < s.detectRet) ∧
    (on_scan_clicked c4_controls 0 0 7).2 = true ∧
    scan_in_progress (run_scan_loop (on_scan_clicked c4_controls 0 0 7).1 c4_hw)
      = false ∧
    scan_channels_scanned
        (run_scan_loop (on_scan_clicked c4_controls 0 0 7).1 c4_hw) = 3 ∧
    (run_scan_loop (on_scan_clicked c4_controls 0 0 7).1 c4_hw).saved_channels
      = expected_saved c4_hw := by
  have h := c4_scan_complete_catalog c4_controls 0 7 c4_hw rfl rfl (by decide)
  exact ⟨rfl, rfl, by decide, h.1, h.2.1, h.2.2.1, h.2.2.2⟩

/-- C6: `on_scan_clicked` (begin) returns immediately with no state change
when a scan is already in progress (AlreadyScanning); otherwise it clears
the found-channel list and the scanned counter before any scanning; and
when the hardware scan-init call fails (negative return), it schedules no
step and the engine stays out of the Stepping state, with the catalog
untouched (ScanInitFailure, remain Idle). -/
theorem c6_begin_guard_reset_initfail (c : ScanControls) (sel : Nat)
    (r : Int) (tid : Nat) :
    (scan_in_progress c = true → on_scan_clicked c sel r tid = (c, false)) ∧
    (c.hd_device = true → scan_in_progress c = false →
      ((on_scan_clicked c sel r tid).1).scan_st.isSome = true ∧
      scan_found_channels (on_scan_clicked c sel r tid).1 = [] ∧
      scan_channels_scanned (on_scan_clicked c sel r tid).1 = 0) ∧
    (c.hd_device = true → scan_in_progress c = false → r < 0 →
      (on_scan_clicked c sel r tid).2 = false ∧
      scan_in_progress (on_scan_clicked c sel r tid).1 = false ∧
      ((on_scan_clicked c sel r tid).1).saved_channels = c.saved_channels ∧
      ((on_scan_clicked c sel r tid).1).channel_list = c.channel_list) := by
  refine ⟨?_, ?_, ?_⟩
  · intro hsc
    unfold on_scan_clicked
    rw [hsc]
    simp
  · intro hdev hsip
    unfold on_scan_clicked
    rw [hdev, hsip]
    simp only [Bool.not_true, Bool.false_eq_true, if_false, if_true]
    by_cases hr : r < 0 <;>
      cases hc : c.scan_st <;>
        simp [hr, hc, scan_found_channels, scan_channels_scanned, scan_state_new]
  · intro hdev hsip hr
    unfold on_scan_clicked
    rw [hdev, hsip]
    simp only [Bool.not_true, Bool.false_eq_true, if_false, if_true]
    rw [if_pos hr]
    have hscan0 : ∀ st, c.scan_st = some st → st.scanning = false := by
      intro st hst
      unfold scan_in_progress at hsip
      rw [hst] at hsip
      simpa using hsip
    cases hc : c.scan_st with
    | none => simp [scan_in_progress, scan_state_new]
    | some st => simp [scan_in_progress, hscan0 st hc]

theorem c6_begin_guard_reset_initfail_witness :
    (scan_in_progress c6_scanning_controls = true ∧
      on_scan_clicked c6_scanning_controls 0 0 9
        = (c6_scanning_controls, false)) ∧
    (c4_controls.hd_device = true ∧ scan_in_progress c4_controls = false ∧
      ((on_scan_clicked c4_controls 1 (-1) 9).1).scan_st.isSome = true ∧
      scan_found_channels (on_scan_clicked c4_controls 1 (-1) 9).1 = [] ∧
      scan_channels_scanned (on_scan_clicked c4_controls 1 (-1) 9).1 = 0) ∧
    ((-1 : Int) < 0 ∧
      (on_scan_clicked c4_controls 1 (-1) 9).2 = false ∧
      scan_in_progress (on_scan_clicked c4_controls 1 (-1) 9).1 = false ∧
      ((on_scan_clicked c4_controls 1 (-1) 9).1).saved_channels
        = c4_controls.saved_channels ∧
      ((on_scan_clicked c4_controls 1 (-1) 9).1).channel_list
        = c4_controls.channel_list) := by
  have h1 := c6_begin_guard_reset_initfail c6_scanning_controls 0 0 9
  have h2 := c6_begin_guard_reset_initfail c4_controls 1 (-1) 9
  refine ⟨⟨by decide, h1.1 (by decide)⟩, ?_, ?_⟩
  · have := h2.2.1 (by decide) (by decide)
    exact ⟨by decide, by decide, this.1, this.2.1, this.2.2⟩
  · have := h2.2.2 (by decide) (by decide) (by decide)
    exact ⟨by decide, this.1, this.2.1, this.2.2.1, this.2.2.2⟩

/-- C7 counterexample: in a fully successful `on_play_clicked` run from a
fresh state, there IS a point at which `playing` is already true while the
poll task is not yet registered — the code sets `playing = TRUE` first and
calls `g_timeout_add` afterwards, the reverse of the claimed order. -/
theorem c7_playing_before_poll_counterexample :
    (on_play_clicked_states play_s0 play_o_ok).any
        (fun st => st.playing && st.stream_timeout_id == 0) = true := by
  decide

/-- C7 amended: `playing` is set to true immediately BEFORE the poll task
is registered, not after: within any `on_play_clicked` run entered with
`playing` false, the single instant at which `playing` is true with the
poll task unregistered is immediately followed by the registration, and
the function never returns with `playing` true and no poll task
registered. -/
theorem c7_playing_set_immediately_before_poll (s : PlayerState)
    (o : PlayOutcomes) (hdev : s.hd_device = true)
    (hplay : s.playing = false) :
    play_trace_ok (on_play_clicked_states s o) = true ∧
    ((on_play_clicked_final s o).playing = true →
      (on_play_clicked_final s o).stream_timeout_id ≠ 0) := by
  cases hvi : s.vlc_instance <;> cases hvp : s.vlc_player <;>
    cases h1 : o.hw_start_ok <;> cases h2 : o.vlc_new_ok <;>
      cases h3 : o.media_new_ok <;> cases h4 : o.player_new_ok <;>
        cases h5 : o.play_ok <;>
          constructor <;>
            simp [on_play_clicked_states, on_play_clicked_final,
              play_trace_ok, hdev, hplay, hvi, hvp, h1, h2, h3, h4, h5]

theorem c7_playing_set_immediately_before_poll_witness :
    play_s0.hd_device = true ∧ play_s0.playing = false ∧
    play_trace_ok (on_play_clicked_states play_s0 play_o_ok) = true ∧
    ((on_play_clicked_final play_s0 play_o_ok).playing = true →
      (on_play_clicked_final play_s0 play_o_ok).stream_timeout_id ≠ 0) := by
  have h := c7_playing_set_immediately_before_poll play_s0 play_o_ok rfl rfl
  exact ⟨rfl, rfl, h.1, h.2⟩

/-- C8 counterexample: when the hardware "begin stream" call fails on a
fresh session, the handler does return the HardwareUnavailable-class
result, but the session state is NOT exactly as before: the stream buffer
was allocated before the hardware call and stays allocated. -/
theorem c8_buffer_alloc_on_failure_counterexample :
    on_play_clicked_result play_s0 play_o_hwfail = PlayResult.hwStartFailed ∧
    on_play_clicked_final play_s0 play_o_hwfail ≠ play_s0 ∧
    (on_play_clicked_final play_s0 play_o_hwfail).stream_buffer = true ∧
    play_s0.stream_buffer = false := by
  decide

/-- C8 amended: on hardware "begin stream" failure, `on_play_clicked`
reports the HardwareUnavailable-class failure and performs no further
action, except that the RingBuffer allocation — which precedes the
hardware call and is retained across stop/play cycles — may now be
present: the final state is exactly the initial state with
`stream_buffer := true`; in particular `playing` stays false, no poll task
is registered, and no hardware stream is left running. -/
theorem c8_hw_start_failure_leaves_state_except_buffer (s : PlayerState)
    (o : PlayOutcomes) (hdev : s.hd_device = true)
    (hplay : s.playing = false) (hhw : o.hw_start_ok = false) :
    on_play_clicked_result s o = PlayResult.hwStartFailed ∧
    on_play_clicked_final s o = { s with stream_buffer := true } := by
  unfold on_play_clicked_result on_play_clicked_final
  simp [hdev, hplay, hhw]

theorem c8_hw_start_failure_leaves_state_except_buffer_witness :
    play_s0.hd_device = true ∧ play_s0.playing = false ∧
    play_o_hwfail.hw_start_ok = false ∧
    on_play_clicked_result play_s0 play_o_hwfail = PlayResult.hwStartFailed ∧
    on_play_clicked_final play_s0 play_o_hwfail
      = { play_s0 with stream_buffer := true } := by
  have h := c8_hw_start_failure_leaves_state_except_buffer play_s0
    play_o_hwfail rfl rfl rfl
  exact ⟨rfl, rfl, rfl, h.1, h.2⟩
